import Mathlib

set_option maxHeartbeats 1000000
set_option linter.unusedVariables false

/-
Verification of the nosleep repository's core sleep-prevention logic
(src/core.py, src/cli.py, src/nosleep.py, src/tray.py) against its
natural-language specification.

Modelling conventions:
- Machine time is a natural number of milliseconds.  `time.sleep(x)` advances
  it by `x * 1000` ms (500 ms for the 0.5 s retry backoff), `datetime.now()`
  reads it, and a duration of `d` minutes is `d * 60000` ms.
- The OS primitive `ctypes.windll.kernel32.SetThreadExecutionState` is an
  oracle `OSBehavior : Nat → OSOutcome`, indexed by how many OS calls were
  made so far.  An outcome is either a returned value (`ret n`, success iff
  `n ≠ 0`, mirroring `result != 0` in the source) or a raised exception
  (`exn`), which the source's `try/except` blocks turn into a `False` result.
- A `Sys` record threads the global observable state: current time, number of
  OS calls made, and an event log.  The log records every OS call with its
  flags and outcome, every sleep, plus two ghost markers mirroring control
  points of the loop in `NoSleep.run`: one per refresh attempt (with the
  refresh counter, the attempt's success and the consecutive-failure counter
  right after the attempt) and one per evaluation of the duration check.
- The unbounded `while self.running` loop is embedded with explicit fuel;
  `none` means the loop did not terminate within the given fuel.
- Logging calls (`logging.info` etc.) and the `verbose` cadence have no
  behavioural effect and are not modelled beyond keeping the parameters.
-/

/-- Outcome of one raw OS call: a returned value, or a raised exception. -/
inductive OSOutcome where
  | ret (n : Nat)
  | exn
  deriving DecidableEq, Repr

/-- The OS primitive as a deterministic oracle, indexed by the number of
OS calls made so far in the process. -/
def OSBehavior := Nat → OSOutcome

/-- A call succeeded when it returned a nonzero value (src/core.py line 48,
`if result != 0: return True`); a raised exception is not a success. -/
def callOk : OSOutcome → Bool
  | .ret n => n != 0
  | .exn => false

/-- Windows API constant (src/constants.py line 7). -/
def ES_CONTINUOUS : Nat := 0x80000000

/-- Windows API constant (src/constants.py line 8). -/
def ES_SYSTEM_REQUIRED : Nat := 0x00000001

/-- Windows API constant (src/constants.py line 9). -/
def ES_DISPLAY_REQUIRED : Nat := 0x00000002

/-- Windows API constant (src/constants.py line 10). -/
def ES_AWAYMODE_REQUIRED : Nat := 0x00000040

/-- Observable events of a process execution.  `oscall` and `sleepEv` are the
real side effects; `refresh` and `durCheck` are ghost markers for control
points of the refresh loop (each carries the model time it occurred at). -/
inductive Event where
  | oscall (t : Nat) (flags : Nat) (out : OSOutcome)
  | sleepEv (t : Nat) (ms : Nat)
  | refresh (t : Nat) (rc : Nat) (success : Bool) (fcAfter : Nat)
  | durCheck (t : Nat) (ed : Nat)
  deriving DecidableEq, Repr

/-- Global observable state threaded through the model: current time (ms),
number of OS calls made so far, and the event log. -/
structure Sys where
  time : Nat
  calls : Nat
  log : List Event
  deriving DecidableEq, Repr

/-- The mutable instance state of the `NoSleep` class (src/core.py lines
17-20): `self.running` and `self.start_time` (`self.thread` is assigned `None`
and never used, so it is omitted). -/
structure NS where
  running : Bool
  start_time : Option Nat
  deriving DecidableEq, Repr

/-- Freshly constructed `NoSleep()` instance (src/core.py `__init__`). -/
def initNS : NS := ⟨false, none⟩

/-- A fresh process world starting at time `t0` with no calls and empty log. -/
def mkSys (t0 : Nat) : Sys := ⟨t0, 0, []⟩

/-- One raw `SetThreadExecutionState(flags)` call: consults the oracle at the
current call index, logs the call, and bumps the call counter. -/
def osCall (os : OSBehavior) (flags : Nat) (s : Sys) : OSOutcome × Sys :=
  (os s.calls, ⟨s.time, s.calls + 1, s.log ++ [Event.oscall s.time flags (os s.calls)]⟩)

/-- `time.sleep`: advances model time by `ms` milliseconds and logs it. -/
def doSleep (ms : Nat) (s : Sys) : Sys :=
  ⟨s.time + ms, s.calls, s.log ++ [Event.sleepEv s.time ms]⟩

/-- Append a ghost event to the log (no time or call effect). -/
def pushEv (s : Sys) (e : Event) : Sys := ⟨s.time, s.calls, s.log ++ [e]⟩

namespace NoSleep

/-- Flag computation of `NoSleep.prevent_sleep` (src/core.py lines 31-41):
base flags `ES_CONTINUOUS | ES_SYSTEM_REQUIRED`, plus `ES_DISPLAY_REQUIRED`
when `prevent_display`, plus `ES_AWAYMODE_REQUIRED` when `away_mode`. -/
def assertFlags (prevent_display away_mode : Bool) : Nat :=
  let f1 := ES_CONTINUOUS ||| ES_SYSTEM_REQUIRED
  let f2 := if prevent_display then f1 ||| ES_DISPLAY_REQUIRED else f1
  if away_mode then f2 ||| ES_AWAYMODE_REQUIRED else f2

/-- `NoSleep.prevent_sleep` (src/core.py lines 22-67): try the OS call; if it
returns nonzero, succeed at once.  Otherwise (zero result or raised
exception, both caught) wait 500 ms and try exactly once more; the attempt
fails iff both calls fail.  Exceptions are caught and mapped to `False`;
nothing propagates. -/
def prevent_sleep (os : OSBehavior) (prevent_display away_mode : Bool) (s : Sys) :
    Bool × Sys :=
  let r1 := osCall os (assertFlags prevent_display away_mode) s
  if callOk r1.1 then (true, r1.2)
  else
    let sb := doSleep 500 r1.2
    let r2 := osCall os (assertFlags prevent_display away_mode) sb
    (callOk r2.1, r2.2)

/-- `NoSleep.allow_sleep` (src/core.py lines 69-76): one OS call with only
`ES_CONTINUOUS`; returns `result != 0`, with a raised exception caught and
mapped to `False`. -/
def allow_sleep (os : OSBehavior) (s : Sys) : Bool × Sys :=
  let r := osCall os ES_CONTINUOUS s
  (callOk r.1, r.2)

/-- `MAX_FAILURES` (src/core.py line 109). -/
def MAX_FAILURES : Nat := 5

/-- `NoSleep.stop` (src/core.py lines 150-160): if `self.running`, set it to
`False`, call `allow_sleep` (the result only affects logging) and report the
elapsed runtime; otherwise do nothing at all. -/
def stop (os : OSBehavior) (ns : NS) (s : Sys) : NS × Sys :=
  if ns.running then
    let r := allow_sleep os s
    ({ ns with running := false }, r.2)
  else (ns, s)

/-- Python truthiness of `duration_minutes` (src/core.py lines 94 and 141:
`if duration_minutes:`): `None` and `0` are both falsy. -/
def pyTruthy : Option Nat → Bool
  | none => false
  | some n => n != 0

/-- The duration test `duration_minutes and datetime.now() >= end_time`
(src/core.py line 141), with the truthiness already folded into the
`Option`al end time. -/
def durElapsed : Option Nat → Nat → Bool
  | none, _ => false
  | some e, t => e ≤ t

/-- Ghost marker: log the evaluation of the duration check (only evaluated
against `end_time` when a duration was configured). -/
def pushCheck (ed : Option Nat) (s : Sys) : Sys :=
  match ed with
  | some e => pushEv s (Event.durCheck s.time e)
  | none => s

/-- The `while self.running` loop of `NoSleep.run` (src/core.py lines
111-143), with explicit fuel.  Each iteration: bump the refresh counter,
perform a `prevent_sleep` attempt; on success reset the failure counter to 0
(status printing has no state effect); on failure bump it and, at
`MAX_FAILURES`, set `self.running = False` and break (before any sleep);
otherwise sleep for the interval and then evaluate the duration check,
breaking when the end time has been reached. -/
def runLoop (os : OSBehavior) (pd am : Bool) (ivms : Nat) (ed : Option Nat) :
    Nat → Nat → NS → Sys → Nat → Option (NS × Sys)
  | _, _, _, _, 0 => none
  | rc, fc, ns, s, fuel + 1 =>
    if ns.running then
      let rc' := rc + 1
      let t0 := s.time
      let res := prevent_sleep os pd am s
      if res.1 then
        let s1 := pushEv res.2 (Event.refresh t0 rc' true 0)
        let s2 := pushCheck ed (doSleep ivms s1)
        if durElapsed ed s2.time then some (ns, s2)
        else runLoop os pd am ivms ed rc' 0 ns s2 fuel
      else
        let fc' := fc + 1
        let s1 := pushEv res.2 (Event.refresh t0 rc' false fc')
        if MAX_FAILURES ≤ fc' then some ({ ns with running := false }, s1)
        else
          let s2 := pushCheck ed (doSleep ivms s1)
          if durElapsed ed s2.time then some (ns, s2)
          else runLoop os pd am ivms ed rc' fc' ns s2 fuel
    else some (ns, s)

/-- `NoSleep.run` (src/core.py lines 78-148): set `running = True` and
`start_time = now`; compute `end_time` only when `duration_minutes` is
truthy (so `None` and `0` both mean no end time); perform the initial
`prevent_sleep` (its failure only logs a warning); run the refresh loop;
and in the `finally` block call `stop()` on the loop's resulting state.
There is no validation of `interval_seconds` anywhere in this method. -/
def run (os : OSBehavior) (duration_minutes : Option Nat) (interval_seconds : Nat)
    (prevent_display away_mode verbose : Bool) (ns : NS) (s : Sys) (fuel : Nat) :
    Option (NS × Sys) :=
  let ns1 := { ns with running := true, start_time := some s.time }
  let ed : Option Nat :=
    if pyTruthy duration_minutes
    then some (s.time + duration_minutes.getD 0 * 60000)
    else none
  let res := prevent_sleep os prevent_display away_mode s
  match runLoop os prevent_display away_mode (interval_seconds * 1000) ed 0 0 ns1 res.2 fuel with
  | none => none
  | some (ns2, s2) => some (stop os ns2 s2)

end NoSleep

/-- The log of a completed run (`[]` when the fuel ran out). -/
def finalLog : Option (NS × Sys) → List Event
  | none => []
  | some (_, s) => s.log

/-- The `running` flag of a completed run (`true` when the fuel ran out, so
that a `false` verdict is never an artifact of exhaustion). -/
def finalRunning : Option (NS × Sys) → Bool
  | none => true
  | some (ns, _) => ns.running

/-- An OS call bearing only `ES_CONTINUOUS`, i.e. a clear (`allow_sleep`). -/
def isClear : Event → Bool
  | .oscall _ f _ => f == ES_CONTINUOUS
  | _ => false

/-- Number of clear calls in a log. -/
def clearCount (l : List Event) : Nat := (l.filter isClear).length

/-- An OS call bearing assert flags (anything other than bare `ES_CONTINUOUS`). -/
def isAssertCall : Event → Bool
  | .oscall _ f _ => f != ES_CONTINUOUS
  | _ => false

/-- Number of assert calls in a log. -/
def assertCount (l : List Event) : Nat := (l.filter isAssertCall).length

/-- The per-refresh ghost records of a log: for each refresh attempt of the
loop, its success flag and the consecutive-failure counter right after it. -/
def refreshRecs (l : List Event) : List (Bool × Nat) :=
  l.filterMap fun e => match e with
    | .refresh _ _ sc fcA => some (sc, fcA)
    | _ => none

/-- Adapter behaviour: every OS call fails with a zero return value. -/
def alwaysFail : OSBehavior := fun _ => .ret 0

/-- Adapter behaviour: every OS call succeeds. -/
def alwaysOk : OSBehavior := fun _ => .ret 1

/-- Adapter behaviour: every OS call raises an exception. -/
def alwaysExn : OSBehavior := fun _ => .exn

section Harness

open NoSleep

/-- Adapter behaviour: the first OS call fails with a zero return, every
later call succeeds. -/
def failThenOk : OSBehavior := fun n => if n == 0 then OSOutcome.ret 0 else OSOutcome.ret 1

/-- Model of the tail of `cli.main` (src/cli.py lines 101-110).  The interval
validation lives here in the CLI layer, not in `NoSleep.run`: an interval
`≤ 0` logs an error and returns exit code 1 before any `NoSleep` instance is
constructed, so no OS call is ever made on that branch.  Otherwise a fresh
`NoSleep` is constructed and `run` invoked; the result is the exit code
together with the event log of the process (empty when the run did not finish
within the fuel, a model artifact that never affects the invalid branch). -/
def cliMain (os : OSBehavior) (duration : Option Nat) (interval : Int)
    (display awaymode verbose : Bool) (t0 fuel : Nat) : Nat × List Event :=
  if interval ≤ 0 then (1, [])
  else
    match NoSleep.run os duration interval.toNat display awaymode verbose initNS (mkSys t0) fuel with
    | some (_, s) => (0, s.log)
    | none => (0, [])

end Harness

namespace StopRace

/-
Interleaving model for two threads concurrently executing `NoSleep.stop`
(src/core.py lines 150-160) on the same instance, as arranged by the tray
layer (src/tray.py: the duration-timer thread and the loop thread both reach
`stop`).  The body is decomposed at the granularity of its accesses to the
shared field `self.running` and the clear call:

  pc 0: about to evaluate `if self.running:` (an atomic read of the flag,
        branching locally on the value read);
  pc 1: the read observed `True`; about to execute `self.running = False`;
  pc 2: about to call `self.allow_sleep()` (the clear);
  pc 3: returned (either via the guard or after clearing; the elapsed-time
        report touches no shared state).

There is no lock in the source, so any interleaving of these steps is
possible.
-/

/-- Shared state plus both program counters: the instance's `running` flag,
the number of `allow_sleep` (clear) invocations so far, and the control
points of thread A and thread B inside `stop`. -/
structure RState where
  running : Bool
  clears : Nat
  pcA : Nat
  pcB : Nat
  deriving DecidableEq, Repr

/-- One atomic step of a thread executing `stop`, given the shared `running`
flag, the clear count and the thread's program counter. -/
def tstep (running : Bool) (clears : Nat) (pc : Nat) : Bool × Nat × Nat :=
  match pc with
  | 0 => if running then (running, clears, 1) else (running, clears, 3)
  | 1 => (false, clears, 2)
  | 2 => (running, clears + 1, 3)
  | _ => (running, clears, pc)

/-- Run a schedule: `true` lets thread A take its next atomic step, `false`
thread B. -/
def sched : List Bool → RState → RState
  | [], st => st
  | c :: rest, st =>
    if c then
      let r := tstep st.running st.clears st.pcA
      sched rest ⟨r.1, r.2.1, r.2.2, st.pcB⟩
    else
      let r := tstep st.running st.clears st.pcB
      sched rest ⟨r.1, r.2.1, st.pcA, r.2.2⟩

/-- Both threads about to call `stop` while the controller is running. -/
def initRace : RState := ⟨true, 0, 0, 0⟩

end StopRace

section TraceAnalysis

/-- Every refresh ghost record in the log happened strictly before time `ed`. -/
def refreshBefore (ed : Nat) (l : List Event) : Bool :=
  l.all fun e => match e with
    | .refresh t _ _ _ => decide (t < ed)
    | _ => true

/-- Recognise a duration-check ghost marker. -/
def isDurCheck : Event → Bool
  | .durCheck _ _ => true
  | _ => false

/-- The previous event (if any) is a sleep of exactly `iv` milliseconds. -/
def matchSleepIv (iv : Nat) : Option Event → Bool
  | some (.sleepEv _ ms) => ms == iv
  | _ => false

/-- Adjacency condition at one event: a duration check must come right after
an interval sleep; any other event is unconstrained. -/
def durStepOk (iv : Nat) (prev : Option Event) (e : Event) : Bool :=
  if isDurCheck e then matchSleepIv iv prev else true

/-- Scan of the whole log: every duration check is immediately preceded by an
interval sleep (the `prev` accumulator carries the previous event). -/
def durOkFrom (iv : Nat) : Option Event → List Event → Bool
  | _, [] => true
  | p, e :: rest => durStepOk iv p e && durOkFrom iv (some e) rest

/-- Last element of `l`, falling back to `p` when `l` is empty. -/
def lastO (p : Option Event) : List Event → Option Event
  | [] => p
  | e :: rest => lastO (some e) rest

/-- Shape of the consecutive-failure counter along the loop's refresh
records, starting from counter value `fc`: a successful refresh resets the
counter to 0; a failing refresh bumps it, and when the bumped value is still
below the threshold the loop goes on, while hitting the threshold makes that
refresh the last one. -/
inductive FcChain : Nat → List (Bool × Nat) → Prop where
  | nil (fc : Nat) : FcChain fc []
  | ok (fc : Nat) {l : List (Bool × Nat)} :
      FcChain 0 l → FcChain fc ((true, 0) :: l)
  | failCont (fc : Nat) {l : List (Bool × Nat)}
      (h : fc + 1 < NoSleep.MAX_FAILURES) :
      FcChain (fc + 1) l → FcChain fc ((false, fc + 1) :: l)
  | failStop (fc : Nat) (h : fc + 1 = NoSleep.MAX_FAILURES) :
      FcChain fc [(false, fc + 1)]

end TraceAnalysis

namespace ScriptNoSleep

/-
Second embedding, translated independently from the standalone script
src/nosleep.py (its `NoSleep` class, lines 23-170, and its module-level
constants, lines 17-20), for comparison with the package module embedding
above.  The script carries its own copies of the Windows API constants
instead of importing src/constants.py.
-/

/-- Windows API constant (src/nosleep.py line 17). -/
def ES_CONTINUOUS : Nat := 0x80000000

/-- Windows API constant (src/nosleep.py line 18). -/
def ES_SYSTEM_REQUIRED : Nat := 0x00000001

/-- Windows API constant (src/nosleep.py line 19). -/
def ES_DISPLAY_REQUIRED : Nat := 0x00000002

/-- Windows API constant (src/nosleep.py line 20). -/
def ES_AWAYMODE_REQUIRED : Nat := 0x00000040

/-- Flag computation of the script's `NoSleep.prevent_sleep`
(src/nosleep.py lines 40-50). -/
def assertFlags (prevent_display away_mode : Bool) : Nat :=
  let f1 := ES_CONTINUOUS ||| ES_SYSTEM_REQUIRED
  let f2 := if prevent_display then f1 ||| ES_DISPLAY_REQUIRED else f1
  if away_mode then f2 ||| ES_AWAYMODE_REQUIRED else f2

/-- The script's `NoSleep.prevent_sleep` (src/nosleep.py lines 31-76). -/
def prevent_sleep (os : OSBehavior) (prevent_display away_mode : Bool) (s : Sys) :
    Bool × Sys :=
  let r1 := osCall os (assertFlags prevent_display away_mode) s
  if callOk r1.1 then (true, r1.2)
  else
    let sb := doSleep 500 r1.2
    let r2 := osCall os (assertFlags prevent_display away_mode) sb
    (callOk r2.1, r2.2)

/-- The script's `NoSleep.allow_sleep` (src/nosleep.py lines 78-85). -/
def allow_sleep (os : OSBehavior) (s : Sys) : Bool × Sys :=
  let r := osCall os ES_CONTINUOUS s
  (callOk r.1, r.2)

/-- `MAX_FAILURES` (src/nosleep.py line 119). -/
def MAX_FAILURES : Nat := 5

/-- The script's `NoSleep.stop` (src/nosleep.py lines 160-170). -/
def stop (os : OSBehavior) (ns : NS) (s : Sys) : NS × Sys :=
  if ns.running then
    let r := allow_sleep os s
    ({ ns with running := false }, r.2)
  else (ns, s)

/-- The `while self.running` loop of the script's `NoSleep.run`
(src/nosleep.py lines 121-153), with explicit fuel. -/
def runLoop (os : OSBehavior) (pd am : Bool) (ivms : Nat) (ed : Option Nat) :
    Nat → Nat → NS → Sys → Nat → Option (NS × Sys)
  | _, _, _, _, 0 => none
  | rc, fc, ns, s, fuel + 1 =>
    if ns.running then
      let rc' := rc + 1
      let t0 := s.time
      let res := prevent_sleep os pd am s
      if res.1 then
        let s1 := pushEv res.2 (Event.refresh t0 rc' true 0)
        let s2 := NoSleep.pushCheck ed (doSleep ivms s1)
        if NoSleep.durElapsed ed s2.time then some (ns, s2)
        else runLoop os pd am ivms ed rc' 0 ns s2 fuel
      else
        let fc' := fc + 1
        let s1 := pushEv res.2 (Event.refresh t0 rc' false fc')
        if MAX_FAILURES ≤ fc' then some ({ ns with running := false }, s1)
        else
          let s2 := NoSleep.pushCheck ed (doSleep ivms s1)
          if NoSleep.durElapsed ed s2.time then some (ns, s2)
          else runLoop os pd am ivms ed rc' fc' ns s2 fuel
    else some (ns, s)

/-- The script's `NoSleep.run` (src/nosleep.py lines 87-158). -/
def run (os : OSBehavior) (duration_minutes : Option Nat) (interval_seconds : Nat)
    (prevent_display away_mode verbose : Bool) (ns : NS) (s : Sys) (fuel : Nat) :
    Option (NS × Sys) :=
  let ns1 := { ns with running := true, start_time := some s.time }
  let ed : Option Nat :=
    if NoSleep.pyTruthy duration_minutes
    then some (s.time + duration_minutes.getD 0 * 60000)
    else none
  let res := prevent_sleep os prevent_display away_mode s
  match runLoop os prevent_display away_mode (interval_seconds * 1000) ed 0 0 ns1 res.2 fuel with
  | none => none
  | some (ns2, s2) => some (stop os ns2 s2)

end ScriptNoSleep

section ClaimTheorems

open NoSleep

/-- C1: the clear-on-every-exit-path claim fails on the fatal path.  With an
adapter whose every call returns 0 and no duration, the run terminates (after
the 5-consecutive-failure threshold), the final refresh records are exactly
five failures, `running` ends up `false` — and the log contains zero clear
calls: `run` set `self.running = False` inside the loop before breaking, so
the `finally`-invoked `stop()` found `running` already `False` and skipped
`allow_sleep` entirely, where the claim demands exactly one clear. -/
theorem c1_fatal_path_skips_clear :
    (run alwaysFail none 20 false false false initNS (mkSys 0) 8).isSome = true ∧
    refreshRecs (finalLog (run alwaysFail none 20 false false false initNS (mkSys 0) 8)) =
      [(false, 1), (false, 2), (false, 3), (false, 4), (false, 5)] ∧
    finalRunning (run alwaysFail none 20 false false false initNS (mkSys 0) 8) = false ∧
    clearCount (finalLog (run alwaysFail none 20 false false false initNS (mkSys 0) 8)) = 0 := by
  decide

/-- C2 (counterexample): `NoSleep.run` called directly with
`interval_seconds = 0` (which is `≤ 0`) does not fail with a configuration
error — it runs normally and invokes the adapter's assert twelve times (the
initial two-call attempt plus five failing two-call refresh attempts), where
the claim says the adapter is never invoked. -/
theorem c2_run_interval_zero_invokes_adapter :
    (run alwaysFail none 0 false false false initNS (mkSys 0) 8).isSome = true ∧
    assertCount (finalLog (run alwaysFail none 0 false false false initNS (mkSys 0) 8)) = 12 := by
  decide

/-- C2 (amended): the interval validation lives in the CLI entry point, not
in `NoSleep.run`.  For every `interval ≤ 0`, `cli.main` logs an error and
returns exit code 1 before constructing a `NoSleep` instance, so neither the
adapter's assert nor its clear is ever invoked (the event log stays empty). -/
theorem c2_cli_rejects_nonpositive_interval
    (os : OSBehavior) (duration : Option Nat) (interval : Int)
    (display awaymode verbose : Bool) (t0 fuel : Nat)
    (h : interval ≤ 0) :
    cliMain os duration interval display awaymode verbose t0 fuel = (1, []) := by
  simp [cliMain, h]

/-- Witness for C2 (amended) at `interval = 0`. -/
theorem c2_cli_rejects_nonpositive_interval_witness :
    (0 : Int) ≤ 0 ∧ cliMain alwaysOk none 0 false false false 0 3 = (1, []) :=
  ⟨by decide, c2_cli_rejects_nonpositive_interval alwaysOk none 0 false false false 0 3 (by decide)⟩

/-- C4: `stop` is idempotent.  When the controller is not running, `stop`
performs no OS call and leaves everything unchanged.  When it is running, one
`stop` performs exactly one clear call, and applying `stop` a second time to
the resulting state changes nothing more, so the clear-and-report side effect
happens exactly once across the two calls. -/
theorem c4_stop_idempotent (os : OSBehavior) (ns : NS) (s : Sys) :
    (ns.running = false → stop os ns s = (ns, s)) ∧
    (ns.running = true →
      clearCount (stop os ns s).2.log = clearCount s.log + 1 ∧
      stop os (stop os ns s).1 (stop os ns s).2 = stop os ns s) := by
  cases h : ns.running <;>
    simp [stop, allow_sleep, osCall, clearCount, isClear, h, List.filter_append]

/-- Witness for C4: a running instance, stopped twice. -/
theorem c4_stop_idempotent_witness :
    (⟨true, some 0⟩ : NS).running = true ∧
    (clearCount (stop alwaysOk ⟨true, some 0⟩ (mkSys 5)).2.log = clearCount (mkSys 5).log + 1 ∧
      stop alwaysOk (stop alwaysOk ⟨true, some 0⟩ (mkSys 5)).1
          (stop alwaysOk ⟨true, some 0⟩ (mkSys 5)).2 =
        stop alwaysOk ⟨true, some 0⟩ (mkSys 5)) :=
  ⟨rfl, (c4_stop_idempotent alwaysOk ⟨true, some 0⟩ (mkSys 5)).2 rfl⟩

/-- C6: the two-attempt policy of `prevent_sleep`, for every adapter
behaviour applied at every state: the attempt succeeds iff one of the (at
most two) underlying OS calls succeeds; when the first call succeeds only one
OS call is made and no time passes; when the first call fails exactly one
more call is made, after a 500 ms wait; and the attempt as a whole fails iff
both calls fail. -/
theorem c6_two_attempt_policy (os : OSBehavior) (pd am : Bool) (s : Sys) :
    (prevent_sleep os pd am s).1 = (callOk (os s.calls) || callOk (os (s.calls + 1))) ∧
    (callOk (os s.calls) = true →
      (prevent_sleep os pd am s).2.calls = s.calls + 1 ∧
      (prevent_sleep os pd am s).2.time = s.time) ∧
    (callOk (os s.calls) = false →
      (prevent_sleep os pd am s).2.calls = s.calls + 2 ∧
      (prevent_sleep os pd am s).2.time = s.time + 500) ∧
    ((prevent_sleep os pd am s).1 = false ↔
      (callOk (os s.calls) = false ∧ callOk (os (s.calls + 1)) = false)) := by
  cases h : callOk (os s.calls) <;>
    simp [prevent_sleep, osCall, doSleep, h]

/-- Witness for C6: first call fails, so the retry branch is exercised. -/
theorem c6_two_attempt_policy_witness :
    callOk (failThenOk (mkSys 0).calls) = false ∧
    ((prevent_sleep failThenOk false false (mkSys 0)).2.calls = (mkSys 0).calls + 2 ∧
      (prevent_sleep failThenOk false false (mkSys 0)).2.time = (mkSys 0).time + 500) :=
  ⟨by decide, (c6_two_attempt_policy failThenOk false false (mkSys 0)).2.2.1 (by decide)⟩

/-- C7: `prevent_sleep` and `allow_sleep` are total at the controller
boundary.  For every adapter behaviour — including one whose calls raise
exceptions, modelled by the `exn` outcome, for which `callOk` is `false` —
both return a boolean determined by the call outcomes; in particular with the
always-raising behaviour both simply return `false`, mirroring the `except`
handlers in the source, so no failure ever escapes to crash the loop. -/
theorem c7_total_no_propagation (os : OSBehavior) (pd am : Bool) (s : Sys) :
    (allow_sleep os s).1 = callOk (os s.calls) ∧
    (prevent_sleep os pd am s).1 = (callOk (os s.calls) || callOk (os (s.calls + 1))) ∧
    (allow_sleep alwaysExn s).1 = false ∧
    (prevent_sleep alwaysExn pd am s).1 = false := by
  refine ⟨rfl, ?_, ?_, ?_⟩
  · cases h : callOk (os s.calls) <;> simp [prevent_sleep, osCall, doSleep, h]
  · simp [allow_sleep, osCall, alwaysExn, callOk]
  · simp [prevent_sleep, osCall, doSleep, alwaysExn, callOk]

/-- C8: two threads running `stop` concurrently on a running instance can
both invoke the clear.  Under the interleaving in which both threads evaluate
`if self.running:` before either executes `self.running = False`, both pass
the guard and `allow_sleep` is invoked twice — the source has no lock, so
this schedule is possible, where the claim demands at most one clear.  Under
a schedule in which one `stop` completes before the other reads the flag,
only the first caller clears. -/
theorem c8_concurrent_stop_double_clear :
    StopRace.sched [true, false, true, true, false, false] StopRace.initRace =
      ⟨false, 2, 3, 3⟩ ∧
    StopRace.sched [true, true, true, false] StopRace.initRace = ⟨false, 1, 3, 3⟩ := by
  decide


/-- The log after a `prevent_sleep` attempt: either one appended assert call
(first call succeeded) or an assert call, the 500 ms backoff sleep, and a
second assert call. -/
lemma prevent_sleep_log (os : OSBehavior) (pd am : Bool) (s : Sys) :
    (prevent_sleep os pd am s).2.log =
        s.log ++ [Event.oscall s.time (assertFlags pd am) (os s.calls)] ∨
    (prevent_sleep os pd am s).2.log =
        ((s.log ++ [Event.oscall s.time (assertFlags pd am) (os s.calls)])
            ++ [Event.sleepEv s.time 500])
          ++ [Event.oscall (s.time + 500) (assertFlags pd am) (os (s.calls + 1))] := by
  cases hc : callOk (os s.calls)
  · right; simp [prevent_sleep, osCall, doSleep, hc]
  · left; simp [prevent_sleep, osCall, hc]

/-- `prevent_sleep` advances time by either 0 or 500 ms. -/
lemma prevent_sleep_time (os : OSBehavior) (pd am : Bool) (s : Sys) :
    (prevent_sleep os pd am s).2.time = s.time ∨
    (prevent_sleep os pd am s).2.time = s.time + 500 := by
  cases hc : callOk (os s.calls)
  · right; simp [prevent_sleep, osCall, doSleep, hc]
  · left; simp [prevent_sleep, osCall, hc]

lemma refreshRecs_append (l1 l2 : List Event) :
    refreshRecs (l1 ++ l2) = refreshRecs l1 ++ refreshRecs l2 := by
  simp [refreshRecs, List.filterMap_append]

lemma refreshRecs_prevent_sleep (os : OSBehavior) (pd am : Bool) (s : Sys) :
    refreshRecs (prevent_sleep os pd am s).2.log = refreshRecs s.log := by
  rcases prevent_sleep_log os pd am s with h | h <;>
    rw [h] <;> simp [refreshRecs_append, refreshRecs]

lemma refreshRecs_pushEv_refresh (s : Sys) (t rc : Nat) (sc : Bool) (fcA : Nat) :
    refreshRecs (pushEv s (Event.refresh t rc sc fcA)).log =
      refreshRecs s.log ++ [(sc, fcA)] := by
  simp [pushEv, refreshRecs_append, refreshRecs]

lemma refreshRecs_doSleep (ms : Nat) (s : Sys) :
    refreshRecs (doSleep ms s).log = refreshRecs s.log := by
  simp [doSleep, refreshRecs_append, refreshRecs]

lemma refreshRecs_pushCheck (ed : Option Nat) (s : Sys) :
    refreshRecs (pushCheck ed s).log = refreshRecs s.log := by
  cases ed <;> simp [pushCheck, pushEv, refreshRecs_append, refreshRecs]

lemma refreshRecs_stop (os : OSBehavior) (ns : NS) (s : Sys) :
    refreshRecs (stop os ns s).2.log = refreshRecs s.log := by
  cases h : ns.running <;>
    simp [stop, allow_sleep, osCall, h, refreshRecs_append, refreshRecs]

/-- After `stop`, the instance is never left running. -/
lemma stop_running_false (os : OSBehavior) (ns : NS) (s : Sys) :
    (stop os ns s).1.running = false := by
  cases h : ns.running <;> simp [stop, h]

/-- With an always-succeeding adapter and no end time the loop never
terminates on its own: every amount of fuel is exhausted. -/
lemma runLoop_alwaysOk_none (pd am : Bool) (ivms : Nat) :
    ∀ (fuel rc fc : Nat) (ns : NS) (s : Sys), ns.running = true →
      runLoop alwaysOk pd am ivms none rc fc ns s fuel = none := by
  intro fuel
  induction fuel with
  | zero => intro rc fc ns s _; rfl
  | succ n ih =>
    intro rc fc ns s h
    have hps : (prevent_sleep alwaysOk pd am s).1 = true := by
      simp [prevent_sleep, osCall, alwaysOk, callOk]
    simp only [runLoop, h, if_true, hps, pushCheck, durElapsed, Bool.false_eq_true,
      if_false]
    exact ih _ _ _ _ h

/-- C9: a zero duration is not a zero-length run.  `duration_minutes = 0` is
falsy in `if duration_minutes:` (src/core.py lines 94, 141), so no end time
is computed and `run` behaves exactly as when no duration is given at all —
for every adapter behaviour, state and fuel the two runs are equal; and with
an always-succeeding adapter such a run never takes a duration-based exit
(it exhausts any amount of fuel). -/
theorem c9_zero_duration_indefinite :
    (∀ (os : OSBehavior) (ivs : Nat) (pd am v : Bool) (ns : NS) (s : Sys) (fuel : Nat),
      run os (some 0) ivs pd am v ns s fuel = run os none ivs pd am v ns s fuel) ∧
    (∀ (ivs : Nat) (pd am v : Bool) (t0 fuel : Nat),
      run alwaysOk (some 0) ivs pd am v initNS (mkSys t0) fuel = none) := by
  constructor
  · intro os ivs pd am v ns s fuel
    rfl
  · intro ivs pd am v t0 fuel
    have hl := runLoop_alwaysOk_none pd am (ivs * 1000) fuel 0 0
      ⟨true, some t0⟩ (prevent_sleep alwaysOk pd am (mkSys t0)).2 rfl
    simp [run, pyTruthy, mkSys, initNS] at hl ⊢
    rw [hl]

/-- Peeling `run` into its loop and the final `stop`. -/
lemma run_elim {os : OSBehavior} {dm : Option Nat} {ivs : Nat} {pd am v : Bool}
    {ns : NS} {s : Sys} {fuel : Nat} {ns' : NS} {s' : Sys}
    (h : run os dm ivs pd am v ns s fuel = some (ns', s')) :
    ∃ ns2 s2,
      runLoop os pd am (ivs * 1000)
          (if pyTruthy dm then some (s.time + dm.getD 0 * 60000) else none)
          0 0 { ns with running := true, start_time := some s.time }
          (prevent_sleep os pd am s).2 fuel = some (ns2, s2) ∧
      ns' = (stop os ns2 s2).1 ∧ s' = (stop os ns2 s2).2 := by
  simp only [run] at h
  split at h
  · exact absurd h (by simp)
  · rename_i ns2 s2 heq
    simp only [Option.some.injEq] at h
    exact ⟨ns2, s2, heq, by rw [h], by rw [h]⟩

/-- Decomposition of a terminating loop run: the refresh records it appends
form an `FcChain` starting from the entry value of the failure counter. -/
lemma runLoop_fcChain (os : OSBehavior) (pd am : Bool) (ivms : Nat) (ed : Option Nat) :
    ∀ (fuel rc fc : Nat) (ns : NS) (s : Sys) (ns' : NS) (s' : Sys),
      fc < MAX_FAILURES →
      runLoop os pd am ivms ed rc fc ns s fuel = some (ns', s') →
      ∃ recs, refreshRecs s'.log = refreshRecs s.log ++ recs ∧ FcChain fc recs := by
  intro fuel
  induction fuel with
  | zero => intro rc fc ns s ns' s' _ h; exact absurd h (by simp [runLoop])
  | succ n ih =>
    intro rc fc ns s ns' s' hfc h
    cases hrun : ns.running with
    | false =>
      simp only [runLoop, hrun, Bool.false_eq_true, if_false,
        Option.some.injEq, Prod.mk.injEq] at h
      obtain ⟨h1, h2⟩ := h
      subst h1; subst h2
      exact ⟨[], by simp, FcChain.nil fc⟩
    | true =>
      simp only [runLoop, hrun, if_true] at h
      cases hps : (prevent_sleep os pd am s).1 with
      | true =>
        simp only [hps, if_true] at h
        set S2 := pushCheck ed (doSleep ivms
          (pushEv (prevent_sleep os pd am s).2 (Event.refresh s.time (rc + 1) true 0)))
          with hS2
        have hlog : refreshRecs S2.log = refreshRecs s.log ++ [(true, 0)] := by
          rw [hS2, refreshRecs_pushCheck, refreshRecs_doSleep,
            refreshRecs_pushEv_refresh, refreshRecs_prevent_sleep]
        by_cases hd : durElapsed ed S2.time = true
        · simp only [hd, if_true, Option.some.injEq, Prod.mk.injEq] at h
          obtain ⟨h1, h2⟩ := h
          refine ⟨[(true, 0)], ?_, FcChain.ok fc (FcChain.nil 0)⟩
          rw [← h2]
          exact hlog
        · simp only [if_neg hd] at h
          obtain ⟨recs, hr1, hr2⟩ :=
            ih (rc + 1) 0 ns S2 ns' s' (by simp [MAX_FAILURES]) h
          refine ⟨(true, 0) :: recs, ?_, FcChain.ok fc hr2⟩
          rw [hr1, hlog, List.append_assoc]
          rfl
      | false =>
        simp only [hps, Bool.false_eq_true, if_false] at h
        by_cases hmax : MAX_FAILURES ≤ fc + 1
        · have hfc5 : fc + 1 = MAX_FAILURES := by
            simp only [MAX_FAILURES] at hfc hmax ⊢
            omega
          simp only [if_pos hmax, Option.some.injEq, Prod.mk.injEq] at h
          obtain ⟨h1, h2⟩ := h
          refine ⟨[(false, fc + 1)], ?_, FcChain.failStop fc hfc5⟩
          rw [← h2, refreshRecs_pushEv_refresh, refreshRecs_prevent_sleep]
        · have hlt : fc + 1 < MAX_FAILURES := by
            simp only [MAX_FAILURES] at hfc hmax ⊢
            omega
          simp only [if_neg hmax] at h
          set S2 := pushCheck ed (doSleep ivms
            (pushEv (prevent_sleep os pd am s).2
              (Event.refresh s.time (rc + 1) false (fc + 1))))
            with hS2
          have hlog : refreshRecs S2.log = refreshRecs s.log ++ [(false, fc + 1)] := by
            rw [hS2, refreshRecs_pushCheck, refreshRecs_doSleep,
              refreshRecs_pushEv_refresh, refreshRecs_prevent_sleep]
          by_cases hd : durElapsed ed S2.time = true
          · simp only [hd, if_true, Option.some.injEq, Prod.mk.injEq] at h
            obtain ⟨h1, h2⟩ := h
            refine ⟨[(false, fc + 1)], ?_, FcChain.failCont fc hlt (FcChain.nil _)⟩
            rw [← h2]
            exact hlog
          · simp only [if_neg hd] at h
            obtain ⟨recs, hr1, hr2⟩ := ih (rc + 1) (fc + 1) ns S2 ns' s' hlt h
            refine ⟨(false, fc + 1) :: recs, ?_, FcChain.failCont fc hlt hr2⟩
            rw [hr1, hlog, List.append_assoc]
            rfl

/-- The properties C3 asserts, read off an `FcChain`: every successful
refresh record carries counter 0, no record exceeds the threshold, and a
record at the threshold is the last one. -/
lemma fcChain_split {fc : Nat} {recs : List (Bool × Nat)} (hch : FcChain fc recs) :
    ∀ (r1 : List (Bool × Nat)) (sc : Bool) (fcA : Nat) (r2 : List (Bool × Nat)),
      recs = r1 ++ (sc, fcA) :: r2 →
      (sc = true → fcA = 0) ∧ fcA ≤ MAX_FAILURES ∧ (fcA = MAX_FAILURES → r2 = []) := by
  induction hch with
  | nil fc =>
    intro r1 sc fcA r2 h
    cases r1 <;> simp at h
  | ok fc hl ih =>
    intro r1 sc fcA r2 h
    cases r1 with
    | nil =>
      simp only [List.nil_append, List.cons.injEq, Prod.mk.injEq] at h
      obtain ⟨⟨hsc, hfcA⟩, hr2⟩ := h
      subst hsc; subst hfcA; subst hr2
      refine ⟨fun _ => rfl, by simp [MAX_FAILURES], fun hc => ?_⟩
      simp [MAX_FAILURES] at hc
    | cons x r1t =>
      simp only [List.cons_append, List.cons.injEq] at h
      exact ih r1t sc fcA r2 h.2
  | failCont fc hlt hl ih =>
    intro r1 sc fcA r2 h
    cases r1 with
    | nil =>
      simp only [List.nil_append, List.cons.injEq, Prod.mk.injEq] at h
      obtain ⟨⟨hsc, hfcA⟩, hr2⟩ := h
      subst hsc; subst hfcA; subst hr2
      refine ⟨fun hc => by simp at hc, Nat.le_of_lt hlt, fun hc => ?_⟩
      rw [hc] at hlt
      exact absurd hlt (lt_irrefl _)
    | cons x r1t =>
      simp only [List.cons_append, List.cons.injEq] at h
      exact ih r1t sc fcA r2 h.2
  | failStop fc heq =>
    intro r1 sc fcA r2 h
    cases r1 with
    | nil =>
      simp only [List.nil_append, List.cons.injEq, Prod.mk.injEq] at h
      obtain ⟨⟨hsc, hfcA⟩, hr2⟩ := h
      subst hsc; subst hfcA; subst hr2
      exact ⟨fun hc => by simp at hc, Nat.le_of_eq heq, fun _ => rfl⟩
    | cons x r1t =>
      simp only [List.cons_append, List.cons.injEq] at h
      obtain ⟨-, ht⟩ := h
      cases r1t <;> simp at ht

/-- C3: the consecutive-failure counter of the refresh loop.  For every
terminating run (any adapter behaviour, any configuration): every successful
refresh resets the counter to 0 — single failures separated by a success
never cumulate; the counter never exceeds the threshold 5; a refresh that
reaches 5 is the last refresh of the loop; and the run ends with
`running = false`. -/
theorem c3_failure_counter_resets (os : OSBehavior) (dm : Option Nat) (ivs : Nat)
    (pd am v : Bool) (t0 fuel : Nat)
    (hs : (run os dm ivs pd am v initNS (mkSys t0) fuel).isSome = true) :
    finalRunning (run os dm ivs pd am v initNS (mkSys t0) fuel) = false ∧
    ∀ (r1 : List (Bool × Nat)) (sc : Bool) (fcA : Nat) (r2 : List (Bool × Nat)),
      refreshRecs (finalLog (run os dm ivs pd am v initNS (mkSys t0) fuel)) =
        r1 ++ (sc, fcA) :: r2 →
      (sc = true → fcA = 0) ∧ fcA ≤ MAX_FAILURES ∧ (fcA = MAX_FAILURES → r2 = []) := by
  obtain ⟨⟨ns', s'⟩, hrun⟩ := Option.isSome_iff_exists.mp hs
  obtain ⟨ns2, s2, hloop, hns', hs'⟩ := run_elim hrun
  rw [hrun]
  constructor
  · rw [finalRunning, hns', stop_running_false]
  · intro r1 sc fcA r2 hdec
    obtain ⟨recs, hrecs, hch⟩ :=
      runLoop_fcChain os pd am (ivs * 1000) _ fuel 0 0 _ _ ns2 s2
        (by simp [MAX_FAILURES]) hloop
    have hpre : refreshRecs (prevent_sleep os pd am (mkSys t0)).2.log = [] := by
      rw [refreshRecs_prevent_sleep]
      rfl
    have hlog : refreshRecs s'.log = recs := by
      rw [hs', refreshRecs_stop, hrecs, hpre, List.nil_append]
    rw [finalLog] at hdec
    exact fcChain_split hch r1 sc fcA r2 (by rw [← hlog]; exact hdec)

/-- Witness for C3: a run with five straight failures terminating at the
threshold; the record at counter 5 is the last. -/
theorem c3_failure_counter_resets_witness :
    (run alwaysFail none 20 false false false initNS (mkSys 0) 8).isSome = true ∧
    refreshRecs (finalLog (run alwaysFail none 20 false false false initNS (mkSys 0) 8)) =
      [(false, 1), (false, 2), (false, 3), (false, 4)] ++ (false, 5) :: [] ∧
    ((false = true → (5 : Nat) = 0) ∧ (5 : Nat) ≤ MAX_FAILURES ∧
      ((5 : Nat) = MAX_FAILURES → ([] : List (Bool × Nat)) = [])) :=
  ⟨by decide, by decide,
    (c3_failure_counter_resets alwaysFail none 20 false false false 0 8 (by decide)).2
      [(false, 1), (false, 2), (false, 3), (false, 4)] false 5 [] (by decide)⟩

lemma lastO_append_one (p : Option Event) (l : List Event) (e : Event) :
    lastO p (l ++ [e]) = some e := by
  induction l generalizing p with
  | nil => rfl
  | cons x xs ih => exact ih (some x)

lemma durOkFrom_append_one (iv : Nat) (p : Option Event) (l : List Event) (e : Event) :
    durOkFrom iv p (l ++ [e]) = (durOkFrom iv p l && durStepOk iv (lastO p l) e) := by
  induction l generalizing p with
  | nil => simp [durOkFrom, lastO]
  | cons x xs ih => simp [durOkFrom, ih, lastO, Bool.and_assoc]

lemma durOk_append_nondur (iv : Nat) (l : List Event) (e : Event)
    (h : durOkFrom iv none l = true) (he : isDurCheck e = false) :
    durOkFrom iv none (l ++ [e]) = true := by
  simp [durOkFrom_append_one, h, durStepOk, he]

lemma durOk_prevent_sleep (os : OSBehavior) (pd am : Bool) (s : Sys) (iv : Nat)
    (h : durOkFrom iv none s.log = true) :
    durOkFrom iv none (prevent_sleep os pd am s).2.log = true := by
  rcases prevent_sleep_log os pd am s with hl | hl <;> rw [hl]
  · exact durOk_append_nondur _ _ _ h rfl
  · exact durOk_append_nondur _ _ _
      (durOk_append_nondur _ _ _ (durOk_append_nondur _ _ _ h rfl) rfl) rfl

/-- Sleeping for the interval and then (when a duration is configured)
evaluating the duration check keeps the adjacency invariant: the check
marker lands directly after the interval sleep it follows in the source. -/
lemma durOk_pushCheck_doSleep (ed : Option Nat) (iv : Nat) (s : Sys)
    (h : durOkFrom iv none s.log = true) :
    durOkFrom iv none (pushCheck ed (doSleep iv s)).log = true := by
  have h1 : durOkFrom iv none (doSleep iv s).log = true := by
    show durOkFrom iv none (s.log ++ [Event.sleepEv s.time iv]) = true
    exact durOk_append_nondur _ _ _ h rfl
  cases ed with
  | none => exact h1
  | some e =>
    show durOkFrom iv none
      ((doSleep iv s).log ++ [Event.durCheck (doSleep iv s).time e]) = true
    rw [durOkFrom_append_one, h1]
    have hlast : lastO none (doSleep iv s).log = some (Event.sleepEv s.time iv) := by
      show lastO none (s.log ++ [Event.sleepEv s.time iv]) = _
      exact lastO_append_one _ _ _
    rw [hlast]
    simp [durStepOk, isDurCheck, matchSleepIv]

lemma durOk_stop (os : OSBehavior) (ns : NS) (s : Sys) (iv : Nat)
    (h : durOkFrom iv none s.log = true) :
    durOkFrom iv none (stop os ns s).2.log = true := by
  cases hr : ns.running with
  | false => simpa [stop, hr] using h
  | true =>
    simp only [stop, hr, if_true]
    show durOkFrom iv none (s.log ++ [Event.oscall s.time ES_CONTINUOUS (os s.calls)]) = true
    exact durOk_append_nondur _ _ _ h rfl

/-- The interval-sleep-then-check adjacency holds for every terminating
loop execution, whatever the end-time configuration. -/
lemma runLoop_durOk (os : OSBehavior) (pd am : Bool) (ivms : Nat) (ed : Option Nat) :
    ∀ (fuel rc fc : Nat) (ns : NS) (s : Sys) (ns' : NS) (s' : Sys),
      durOkFrom ivms none s.log = true →
      runLoop os pd am ivms ed rc fc ns s fuel = some (ns', s') →
      durOkFrom ivms none s'.log = true := by
  intro fuel
  induction fuel with
  | zero => intro rc fc ns s ns' s' _ h; exact absurd h (by simp [runLoop])
  | succ n ih =>
    intro rc fc ns s ns' s' hdo h
    cases hrun : ns.running with
    | false =>
      simp only [runLoop, hrun, Bool.false_eq_true, if_false,
        Option.some.injEq, Prod.mk.injEq] at h
      rw [← h.2]
      exact hdo
    | true =>
      simp only [runLoop, hrun, if_true] at h
      have hdo1 : durOkFrom ivms none (prevent_sleep os pd am s).2.log = true :=
        durOk_prevent_sleep os pd am s ivms hdo
      cases hps : (prevent_sleep os pd am s).1 with
      | true =>
        simp only [hps, if_true] at h
        have hdoS1 : durOkFrom ivms none
            (pushEv (prevent_sleep os pd am s).2
              (Event.refresh s.time (rc + 1) true 0)).log = true := by
          show durOkFrom ivms none
            ((prevent_sleep os pd am s).2.log ++ [Event.refresh s.time (rc + 1) true 0]) = true
          exact durOk_append_nondur _ _ _ hdo1 rfl
        have hdoS2 := durOk_pushCheck_doSleep ed ivms _ hdoS1
        by_cases hd : durElapsed ed (pushCheck ed (doSleep ivms
            (pushEv (prevent_sleep os pd am s).2
              (Event.refresh s.time (rc + 1) true 0)))).time = true
        · simp only [hd, if_true, Option.some.injEq, Prod.mk.injEq] at h
          rw [← h.2]
          exact hdoS2
        · simp only [if_neg hd] at h
          exact ih _ _ _ _ _ _ hdoS2 h
      | false =>
        simp only [hps, Bool.false_eq_true, if_false] at h
        have hdoS1 : durOkFrom ivms none
            (pushEv (prevent_sleep os pd am s).2
              (Event.refresh s.time (rc + 1) false (fc + 1))).log = true := by
          show durOkFrom ivms none
            ((prevent_sleep os pd am s).2.log ++
              [Event.refresh s.time (rc + 1) false (fc + 1)]) = true
          exact durOk_append_nondur _ _ _ hdo1 rfl
        by_cases hmax : MAX_FAILURES ≤ fc + 1
        · simp only [if_pos hmax, Option.some.injEq, Prod.mk.injEq] at h
          rw [← h.2]
          exact hdoS1
        · simp only [if_neg hmax] at h
          have hdoS2 := durOk_pushCheck_doSleep ed ivms _ hdoS1
          by_cases hd : durElapsed ed (pushCheck ed (doSleep ivms
              (pushEv (prevent_sleep os pd am s).2
                (Event.refresh s.time (rc + 1) false (fc + 1))))).time = true
          · simp only [hd, if_true, Option.some.injEq, Prod.mk.injEq] at h
            rw [← h.2]
            exact hdoS2
          · simp only [if_neg hd] at h
            exact ih _ _ _ _ _ _ hdoS2 h

lemma refreshBefore_append (e : Nat) (l1 l2 : List Event) :
    refreshBefore e (l1 ++ l2) = (refreshBefore e l1 && refreshBefore e l2) := by
  simp [refreshBefore, List.all_append]

lemma refreshBefore_prevent_sleep (os : OSBehavior) (pd am : Bool) (s : Sys) (e : Nat) :
    refreshBefore e (prevent_sleep os pd am s).2.log = refreshBefore e s.log := by
  rcases prevent_sleep_log os pd am s with hl | hl <;> rw [hl] <;>
    simp [refreshBefore_append, refreshBefore]

lemma refreshBefore_pushEv_refresh (s : Sys) (t rc : Nat) (sc : Bool) (fcA e : Nat)
    (h : refreshBefore e s.log = true) (ht : t < e) :
    refreshBefore e (pushEv s (Event.refresh t rc sc fcA)).log = true := by
  show refreshBefore e (s.log ++ [Event.refresh t rc sc fcA]) = true
  rw [refreshBefore_append, h]
  simp [refreshBefore, ht]

lemma refreshBefore_pushCheck_doSleep (ed : Option Nat) (ms : Nat) (s : Sys) (e : Nat)
    (h : refreshBefore e s.log = true) :
    refreshBefore e (pushCheck ed (doSleep ms s)).log = true := by
  cases ed with
  | none =>
    show refreshBefore e (s.log ++ [Event.sleepEv s.time ms]) = true
    rw [refreshBefore_append, h]
    rfl
  | some x =>
    show refreshBefore e
      ((s.log ++ [Event.sleepEv s.time ms]) ++ [Event.durCheck (s.time + ms) x]) = true
    rw [refreshBefore_append, refreshBefore_append, h]
    rfl

lemma refreshBefore_stop (os : OSBehavior) (ns : NS) (s : Sys) (e : Nat) :
    refreshBefore e (stop os ns s).2.log = refreshBefore e s.log := by
  cases h : ns.running <;>
    simp [stop, allow_sleep, osCall, h, refreshBefore_append, refreshBefore]

/-- When an end time `e` is configured, every refresh the terminating loop
performs has its tick strictly before `e`: an iteration only starts after
the previous duration check observed a time below `e`, and the loop is
entered below `e`. -/
lemma runLoop_refreshBefore (os : OSBehavior) (pd am : Bool) (ivms e : Nat) :
    ∀ (fuel rc fc : Nat) (ns : NS) (s : Sys) (ns' : NS) (s' : Sys),
      s.time < e →
      refreshBefore e s.log = true →
      runLoop os pd am ivms (some e) rc fc ns s fuel = some (ns', s') →
      refreshBefore e s'.log = true := by
  intro fuel
  induction fuel with
  | zero => intro rc fc ns s ns' s' _ _ h; exact absurd h (by simp [runLoop])
  | succ n ih =>
    intro rc fc ns s ns' s' htime hrb h
    cases hrun : ns.running with
    | false =>
      simp only [runLoop, hrun, Bool.false_eq_true, if_false,
        Option.some.injEq, Prod.mk.injEq] at h
      rw [← h.2]
      exact hrb
    | true =>
      simp only [runLoop, hrun, if_true] at h
      have hrb1 : refreshBefore e (prevent_sleep os pd am s).2.log = true := by
        rw [refreshBefore_prevent_sleep]
        exact hrb
      cases hps : (prevent_sleep os pd am s).1 with
      | true =>
        simp only [hps, if_true] at h
        have hrbS1 := refreshBefore_pushEv_refresh
          (prevent_sleep os pd am s).2 s.time (rc + 1) true 0 e hrb1 htime
        have hrbS2 := refreshBefore_pushCheck_doSleep (some e) ivms _ e hrbS1
        by_cases hd : durElapsed (some e) (pushCheck (some e) (doSleep ivms
            (pushEv (prevent_sleep os pd am s).2
              (Event.refresh s.time (rc + 1) true 0)))).time = true
        · simp only [hd, if_true, Option.some.injEq, Prod.mk.injEq] at h
          rw [← h.2]
          exact hrbS2
        · simp only [if_neg hd] at h
          have htime2 : (pushCheck (some e) (doSleep ivms
              (pushEv (prevent_sleep os pd am s).2
                (Event.refresh s.time (rc + 1) true 0)))).time < e := by
            simp only [durElapsed, decide_eq_true_eq] at hd
            omega
          exact ih _ _ _ _ _ _ htime2 hrbS2 h
      | false =>
        simp only [hps, Bool.false_eq_true, if_false] at h
        have hrbS1 := refreshBefore_pushEv_refresh
          (prevent_sleep os pd am s).2 s.time (rc + 1) false (fc + 1) e hrb1 htime
        by_cases hmax : MAX_FAILURES ≤ fc + 1
        · simp only [if_pos hmax, Option.some.injEq, Prod.mk.injEq] at h
          rw [← h.2]
          exact hrbS1
        · simp only [if_neg hmax] at h
          have hrbS2 := refreshBefore_pushCheck_doSleep (some e) ivms _ e hrbS1
          by_cases hd : durElapsed (some e) (pushCheck (some e) (doSleep ivms
              (pushEv (prevent_sleep os pd am s).2
                (Event.refresh s.time (rc + 1) false (fc + 1))))).time = true
          · simp only [hd, if_true, Option.some.injEq, Prod.mk.injEq] at h
            rw [← h.2]
            exact hrbS2
          · simp only [if_neg hd] at h
            have htime2 : (pushCheck (some e) (doSleep ivms
                (pushEv (prevent_sleep os pd am s).2
                  (Event.refresh s.time (rc + 1) false (fc + 1))))).time < e := by
              simp only [durElapsed, decide_eq_true_eq] at hd
              omega
            exact ih _ _ _ _ _ _ htime2 hrbS2 h

/-- C5: with a finite duration configured, every duration check of the run
is evaluated immediately after the interval sleep of its iteration
(`durOkFrom`), and every refresh tick of the loop happens strictly before
the end time `startTime + duration` (`refreshBefore`) — so the refresh whose
following check detects expiration still executes, and no refresh at all is
performed at or after the end time. -/
theorem c5_duration_check_after_sleep (os : OSBehavior) (dm ivs : Nat)
    (pd am v : Bool) (t0 fuel : Nat) (hdm : 0 < dm)
    (hs : (run os (some dm) ivs pd am v initNS (mkSys t0) fuel).isSome = true) :
    refreshBefore (t0 + dm * 60000)
      (finalLog (run os (some dm) ivs pd am v initNS (mkSys t0) fuel)) = true ∧
    durOkFrom (ivs * 1000) none
      (finalLog (run os (some dm) ivs pd am v initNS (mkSys t0) fuel)) = true := by
  obtain ⟨⟨ns', s'⟩, hrun⟩ := Option.isSome_iff_exists.mp hs
  obtain ⟨ns2, s2, hloop, hns', hs'⟩ := run_elim hrun
  have hpt : pyTruthy (some dm) = true := by
    simp only [pyTruthy, bne_iff_ne, ne_eq]
    omega
  rw [hpt] at hloop
  simp only [if_true, Option.getD_some, show (mkSys t0).time = t0 from rfl] at hloop
  have h60 : 60000 ≤ dm * 60000 := Nat.le_mul_of_pos_left 60000 hdm
  have hT : (prevent_sleep os pd am (mkSys t0)).2.time < t0 + dm * 60000 := by
    rcases prevent_sleep_time os pd am (mkSys t0) with h | h <;>
      rw [h, show (mkSys t0).time = t0 from rfl] <;> omega
  have hRB0 : refreshBefore (t0 + dm * 60000) (prevent_sleep os pd am (mkSys t0)).2.log
      = true := by
    rw [refreshBefore_prevent_sleep]
    rfl
  have hDO0 : durOkFrom (ivs * 1000) none (prevent_sleep os pd am (mkSys t0)).2.log
      = true :=
    durOk_prevent_sleep os pd am (mkSys t0) (ivs * 1000) rfl
  have hRB2 := runLoop_refreshBefore os pd am (ivs * 1000) (t0 + dm * 60000)
    fuel 0 0 _ _ ns2 s2 hT hRB0 hloop
  have hDO2 := runLoop_durOk os pd am (ivs * 1000) (some (t0 + dm * 60000))
    fuel 0 0 _ _ ns2 s2 hDO0 hloop
  rw [hrun]
  constructor
  · rw [finalLog, hs', refreshBefore_stop]
    exact hRB2
  · rw [finalLog, hs']
    exact durOk_stop os ns2 s2 (ivs * 1000) hDO2

/-- Witness for C5: a successful one-minute run with a 20 s interval. -/
theorem c5_duration_check_after_sleep_witness :
    0 < 1 ∧
    (run alwaysOk (some 1) 20 false false false initNS (mkSys 0) 5).isSome = true ∧
    (refreshBefore (0 + 1 * 60000)
        (finalLog (run alwaysOk (some 1) 20 false false false initNS (mkSys 0) 5)) = true ∧
      durOkFrom (20 * 1000) none
        (finalLog (run alwaysOk (some 1) 20 false false false initNS (mkSys 0) 5)) = true) :=
  ⟨by decide, by decide,
    c5_duration_check_after_sleep alwaysOk 1 20 false false false 0 5 (by decide) (by decide)⟩

/-- The script's refresh loop and the package module's refresh loop agree on
all inputs. -/
lemma script_runLoop_eq (os : OSBehavior) (pd am : Bool) (ivms : Nat) (ed : Option Nat) :
    ∀ (fuel rc fc : Nat) (ns : NS) (s : Sys),
      ScriptNoSleep.runLoop os pd am ivms ed rc fc ns s fuel =
        runLoop os pd am ivms ed rc fc ns s fuel := by
  intro fuel
  induction fuel with
  | zero => intro rc fc ns s; rfl
  | succ n ih =>
    intro rc fc ns s
    simp only [ScriptNoSleep.runLoop, runLoop]
    have hps : ScriptNoSleep.prevent_sleep os pd am s = prevent_sleep os pd am s := rfl
    rw [hps]
    cases hrun : ns.running with
    | false => simp only [hrun, Bool.false_eq_true, if_false]
    | true =>
      simp only [hrun, if_true]
      cases hps1 : (prevent_sleep os pd am s).1 with
      | true =>
        simp only [hps1, if_true]
        by_cases hd : durElapsed ed (pushCheck ed (doSleep ivms
            (pushEv (prevent_sleep os pd am s).2
              (Event.refresh s.time (rc + 1) true 0)))).time = true
        · simp only [hd, if_true]
        · simp only [if_neg hd]
          exact ih _ _ _ _
      | false =>
        simp only [hps1, Bool.false_eq_true, if_false]
        have hM : ScriptNoSleep.MAX_FAILURES = MAX_FAILURES := rfl
        rw [hM]
        by_cases hmax : MAX_FAILURES ≤ fc + 1
        · simp only [if_pos hmax]
        · simp only [if_neg hmax]
          by_cases hd : durElapsed ed (pushCheck ed (doSleep ivms
              (pushEv (prevent_sleep os pd am s).2
                (Event.refresh s.time (rc + 1) false (fc + 1))))).time = true
          · simp only [hd, if_true]
          · simp only [if_neg hd]
            exact ih _ _ _ _

/-- C10: the `NoSleep` class of the standalone script src/nosleep.py and the
`NoSleep` class of the package module src/core.py are behaviourally
equivalent: for every adapter behaviour, configuration and state, their flag
computation, `prevent_sleep`, `allow_sleep`, `stop` and `run` produce
identical results, identical final states and identical event logs (hence
the same sequence of OS calls). -/
theorem c10_script_core_equiv :
    (∀ pd am : Bool, ScriptNoSleep.assertFlags pd am = assertFlags pd am) ∧
    (∀ (os : OSBehavior) (pd am : Bool) (s : Sys),
      ScriptNoSleep.prevent_sleep os pd am s = prevent_sleep os pd am s) ∧
    (∀ (os : OSBehavior) (s : Sys),
      ScriptNoSleep.allow_sleep os s = allow_sleep os s) ∧
    (∀ (os : OSBehavior) (ns : NS) (s : Sys),
      ScriptNoSleep.stop os ns s = stop os ns s) ∧
    (∀ (os : OSBehavior) (dm : Option Nat) (ivs : Nat) (pd am v : Bool) (ns : NS)
        (s : Sys) (fuel : Nat),
      ScriptNoSleep.run os dm ivs pd am v ns s fuel = run os dm ivs pd am v ns s fuel) := by
  refine ⟨fun pd am => rfl, fun os pd am s => rfl, fun os s => rfl, fun os ns s => rfl, ?_⟩
  intro os dm ivs pd am v ns s fuel
  simp only [ScriptNoSleep.run, run]
  rw [show ScriptNoSleep.prevent_sleep os pd am s = prevent_sleep os pd am s from rfl,
    script_runLoop_eq]
  rfl

end ClaimTheorems
